import Mathlib

/-!
# Verification of the `idletypecheck` diagnostic-to-comment mapper

Shallow embedding of the core algorithm of the `idletypecheck` IDLE
extension (file `src/idletypecheck/__init__.py`): parsing a mypy report
into message records (`parse_comments`), duplicate detection
(`comment_exists`), comment insertion (`add_comment`, `add_comments`),
caret-pointer synthesis (`get_pointers`) and comment removal
(`remove_all_type_comments`).

The text buffer is modelled as a `List String` of physical lines, without
trailing newline characters; the Tk operation `text.get(f"{line}.0",
f"{line+1}.0")` returns the line's text plus a `"\n"`, which the model
reproduces.  Python strings are Lean `String`s; the handful of Python
string primitives the code uses (`split`, `splitlines`, `lstrip`,
`startswith`, `in`, `int(...)`) are modelled character-by-character below
so that their semantics are explicit.  Machine integers are `Int`
(Python integers are unbounded).  `int(...)`, which can raise
`ValueError`, is modelled as an `Option Int`; the exception propagating
out of `parse_comments` is modelled by `parse_comments` returning `none`.
-/

namespace IdleTypeCheck

/-- Characters the Python `str` whitespace methods and the regex `\s`
class strip (ASCII subset; the exotic unicode whitespace characters never
occur in mypy reports and are not modelled). -/
def isPyWs (c : Char) : Bool :=
  c = ' ' || c = '\t' || c = '\n' || c = '\r' || c = '\x0b' || c = '\x0c'

/-- Characters Python `str.splitlines` breaks on (ASCII subset). -/
def isLineBreak (c : Char) : Bool :=
  c = '\n' || c = '\r' || c = '\x0b' || c = '\x0c' ||
  c = '\x1c' || c = '\x1d' || c = '\x1e'

/-- Worker for `pySplitLines`: accumulates the current line (reversed). -/
def splitLinesAux : List Char → List Char → List (List Char)
  | [], acc => if acc.isEmpty then [] else [acc.reverse]
  | '\r' :: '\n' :: rest, acc => acc.reverse :: splitLinesAux rest []
  | c :: rest, acc =>
    if isLineBreak c then acc.reverse :: splitLinesAux rest []
    else splitLinesAux rest (c :: acc)

/-- Python `str.splitlines()`: no trailing empty line for a trailing
newline, `[]` for the empty string, `\r\n` counts as one break. -/
def pySplitLines (s : String) : List String :=
  (splitLinesAux s.data []).map fun l => ⟨l⟩

/-- Worker for `pySplitOn` (separator assumed nonempty): leftmost,
non-overlapping occurrences, like Python `str.split(sep)`.  The `fuel`
argument makes the recursion structural (each step consumes at least one
character, so with `fuel = l.length` the fuel never runs out and the
fallback first branch is unreachable). -/
def splitOnAux (sep : List Char) : Nat → List Char → List Char → List (List Char)
  | 0, l, acc => [acc.reverse ++ l]
  | _ + 1, [], acc => [acc.reverse]
  | fuel + 1, c :: rest, acc =>
    if sep.isPrefixOf (c :: rest) then
      acc.reverse :: splitOnAux sep fuel (rest.drop (sep.length - 1)) []
    else
      splitOnAux sep fuel rest (c :: acc)

/-- Python `str.split(sep)` for a nonempty separator `sep`. -/
def pySplitOn (s sep : String) : List String :=
  (splitOnAux sep.data s.data.length s.data []).map fun l => ⟨l⟩

/-- Python `sep.join(parts)`. -/
def pyJoin (sep : String) : List String → String
  | [] => ""
  | [x] => x
  | x :: xs => x ++ sep ++ pyJoin sep xs

/-- Python `needle in hay` (substring containment). -/
def containsSub (hay needle : String) : Bool :=
  (List.range (hay.data.length + 1)).any fun i =>
    needle.data.isPrefixOf (hay.data.drop i)

/-- Python `str.lstrip()` (strip leading whitespace). -/
def pyLStrip (s : String) : String := ⟨s.data.dropWhile isPyWs⟩

/-- Python `s.startswith(p)`. -/
def pyStartsWith (s p : String) : Bool := p.data.isPrefixOf s.data

/-- Nonempty all-decimal-digit character list to its value. -/
def natOfDigits? (l : List Char) : Option Nat :=
  if l.isEmpty then none
  else if l.all Char.isDigit then
    some (l.foldl (fun a c => a * 10 + (c.toNat - 48)) 0)
  else none

/-- Python `int(s)`: optional surrounding whitespace, optional sign, then
decimal digits; raises (here: `none`) otherwise.  (Digit-group
underscores, which mypy never emits, are not modelled.) -/
def pyInt? (s : String) : Option Int :=
  let t := (s.data.dropWhile isPyWs).reverse.dropWhile isPyWs |>.reverse
  match t with
  | '-' :: ds => (natOfDigits? ds).map fun n => -(n : Int)
  | '+' :: ds => (natOfDigits? ds).map fun n => (n : Int)
  | ds => (natOfDigits? ds).map fun n => (n : Int)

/-! ## Data model

A parsed diagnostic is a Python dict in the source; the keys it can carry
are modelled as fields.  Pointer messages synthesized by `get_pointers`
carry only the `"line"` and `"message"` keys, so `file`, `column_end`,
`line_end` and `mtype` are `Option`s / defaults for them (`add_comment`,
the only consumer of pointer messages, reads only `line` and `message`).
The `"column"` key is likewise absent from pointer dicts and never read
from them; it is modelled as `0` there. -/

structure Message where
  /-- The `"file"` key; absent (`none`) on pointer messages. -/
  file : Option String
  /-- The `"line"` key (1-based target line). -/
  line : Int
  /-- The `"column"` key (`0` for pointer messages, where it is absent). -/
  column : Int
  /-- The `"line_end"` key; absent on pointer messages. -/
  line_end : Option Int
  /-- The `"column_end"` key; absent on pointer messages (the consumer
  `get_pointers` reads it with `dict.get` and a default). -/
  column_end : Option Int
  /-- The `"type"` key (written during parsing, never read downstream). -/
  mtype : Option String
  /-- The `"message"` key: the rendered comment body. -/
  message : String
deriving DecidableEq, Repr

/-- The class attribute `idletypecheck.comment`, the comment marker. -/
def commentMarker : String := "# typecheck: "

/-! ## Report parser (`idletypecheck.parse_comments`) -/

/-- One acceptable character of the error-code tag: the regex class
`[a-z\-]` of `re.compile(r"  \[[a-z\-]+\]\s*$")`. -/
def isTagChar (c : Char) : Bool := decide (('a' ≤ c ∧ c ≤ 'z') ∨ c = '-')

/-- Does this character list match `  \[[a-z\-]+\]\s*$` when anchored at
its start (the whole list is consumed: the pattern ends in `$` and the
input contains no newline)? -/
def isTagMatch : List Char → Bool
  | ' ' :: ' ' :: '[' :: rest =>
    let tag := rest.takeWhile isTagChar
    !tag.isEmpty &&
      (match rest.dropWhile isTagChar with
       | ']' :: ws => ws.all isPyWs
       | _ => false)
  | _ => false

/-- `re.search` of `  \[[a-z\-]+\]\s*$` on `text`: the start index of the
leftmost match, if any.  Because the pattern is `$`-anchored, a match
always extends to the end of `text`. -/
def findTagStart (text : String) : Option Nat :=
  (List.range (text.data.length + 1)).find? fun i =>
    isTagMatch (text.data.drop i)

/-- The location/severity/text fields of one report line before the
error-tag transform: `(filename, line, line_end, col, col_end, mtype,
text)`.  `none` models the `ValueError` that `int(...)` raises on
non-decimal location fields. -/
def parseLocation (defaultFile : String) (defaultLine : Int)
    (comment : String) : Option (String × Int × Int × Int × Int × String × String) :=
  let parts := pySplitOn comment ": "
  -- `comment.count(": ") < 2` is `parts.length < 3`
  if parts.length < 3 then
    some (defaultFile, defaultLine, defaultLine, 0, 0, "unrecognized", comment)
  else
    let why := parts.getD 0 ""
    let mtype := parts.getD 1 ""
    let text := pyJoin ": " (parts.drop 2)
    let position := pySplitOn why ":"
    let filename := position.getD 0 ""
    if position.length > 1 then
      match pyInt? (position.getD 1 "") with
      | none => none
      | some line =>
        if position.length > 2 then
          match pyInt? (position.getD 2 "") with
          | none => none
          | some col =>
            if position.length > 4 then
              match pyInt? (position.getD 3 "") with
              | none => none
              | some lineEnd =>
                if lineEnd = line then
                  match pyInt? (position.getD 4 "") with
                  | none => none
                  | some colEnd => some (filename, line, lineEnd, col, colEnd, mtype, text)
                else
                  -- `else: line_end = line`
                  some (filename, line, line, col, col, mtype, text)
            else some (filename, line, line, col, col, mtype, text)
        else some (filename, line, line, 0, 0, mtype, text)
    else some (filename, defaultLine, defaultLine, 0, 0, mtype, text)

/-- Parse a single report line into a message record (the body of the
`for comment in comments.splitlines()` loop of `parse_comments`). -/
def parseLine (defaultFile : String) (defaultLine : Int)
    (comment : String) : Option Message :=
  match parseLocation defaultFile defaultLine comment with
  | none => none
  | some (filename, line, lineEnd, col, colEnd, mtype, text) =>
    let (mtype, text) :=
      match findTagStart text with
      | some i =>
        -- `text = text[:comment_type.start()]` and
        -- `mtype = f"{comment_type.group(0)[3:-1]} {mtype}"`
        (⟨(((text.data.drop i).drop 3).dropLast)⟩ ++ " " ++ mtype, ⟨text.data.take i⟩)
      | none => (mtype, text)
    some { file := some filename, line := line, column := col,
           line_end := some lineEnd, column_end := some colEnd,
           mtype := some mtype, message := mtype ++ ": " ++ text }

/-- Append `m` to the group of `key`, preserving first-encounter key
order (Python dict insertion-order semantics). -/
def insertGroupedBy {κ : Type} [DecidableEq κ] (groups : List (κ × List Message))
    (key : κ) (m : Message) : List (κ × List Message) :=
  match groups with
  | [] => [(key, [m])]
  | (k, l) :: rest =>
    if k = key then (k, l ++ [m]) :: rest
    else (k, l) :: insertGroupedBy rest key m

/-- Worker for `parseComments`: `none` as soon as one line raises. -/
def parseCommentsGo (defaultFile : String) (defaultLine : Int) :
    List String → List (String × List Message) → Option (List (String × List Message))
  | [], files => some files
  | line :: rest, files =>
    match parseLine defaultFile defaultLine line with
    | none => none
    | some m =>
      -- the grouping key is the local `filename`, which is exactly the
      -- value stored in the message's `"file"` key (always present here)
      parseCommentsGo defaultFile defaultLine rest
        (insertGroupedBy files (m.file.getD defaultFile) m)

/-- `idletypecheck.parse_comments(comments, default_file, default_line)`:
message records grouped by filename in encounter order.  `none` models
the `ValueError` escaping when a location field is not a decimal
integer. -/
def parseComments (comments defaultFile : String) (defaultLine : Int) :
    Option (List (String × List Message)) :=
  parseCommentsGo defaultFile defaultLine (pySplitLines comments) []

/-! ## Buffer primitives

The Tk text buffer is a `List String` of lines (no embedded newlines).
`get_line(line)` is `text.get(f"{line}.0", f"{line+1}.0")`, i.e. the
line's text plus its trailing `"\n"`; for an out-of-range line the two
clamped Tk indices coincide and the result is `""`. -/

/-- `idletypecheck.get_line`. -/
def getLine (buf : List String) (line : Int) : String :=
  if 1 ≤ line ∧ line ≤ buf.length then buf.getD (line - 1).toNat "" ++ "\n"
  else ""

/-- `get_line_indent(text)`: index of the first nonempty chunk of
`text.split(" ")`, else 0 — the number of leading spaces (a trailing
`"\n"` chunk counts as nonempty). -/
def getLineIndent (text : String) : Nat :=
  ((pySplitOn text " ").findIdx? (fun cur => cur ≠ "")).getD 0

/-- `idletypecheck.get_msg_line(indent, msg)`. -/
def getMsgLine (indent : Nat) (msg : String) : String :=
  ⟨List.replicate indent ' '⟩ ++ commentMarker ++ msg

/-- `idletypecheck.comment_exists(line, text)`: is the canonical
rendering a substring of buffer line `line - 1`? -/
def commentExists (buf : List String) (line : Int) (text : String) : Bool :=
  containsSub (getLine buf (line - 1)) (getMsgLine 0 text)

/-- `idletypecheck.add_comment(message, max_exist_up)`: returns whether a
comment was inserted, and the updated buffer.  The duplicate window
checks buffer lines `line, line-1, ..., line-max_exist_up` (the loop
calls `comment_exists(line - (i - 1), msg)` for `i in
range(max_exist_up + 1)`, and `comment_exists` looks one line above its
argument).  Insertion replaces line `line` with the comment line followed
by the original text.  For an out-of-range `line` the Tk indices clamp:
beyond the end the deleted range is empty and the comment line is
appended; before line 1 (`line < 1`) both indices clamp to `1.0`, nothing
is deleted, and `get_line` returned `""`, so the comment line is
prepended. -/
def addComment (buf : List String) (m : Message) (maxExistUp : Nat) :
    Bool × List String :=
  let line := m.line
  let msg := m.message
  if (List.range (maxExistUp + 1)).any
      (fun i => commentExists buf (line - ((i : Int) - 1)) msg) then
    (false, buf)
  else
    let chars := getLine buf line
    let indent := getLineIndent chars
    let msgLine := getMsgLine indent msg
    if 1 ≤ line ∧ line ≤ buf.length then
      (true, buf.take (line - 1).toNat ++ msgLine :: buf.getD (line - 1).toNat "" :: buf.drop line.toNat)
    else if line > buf.length then (true, buf ++ [msgLine])
    else (true, msgLine :: buf)

/-! ## Pointer synthesis (`idletypecheck.get_pointers`) -/

/-- Python `range(a, b)` over `Int`. -/
def intRange (a b : Int) : List Int :=
  (List.range (b - a).toNat).map fun i => a + i

/-- Insert into a strictly ascending list, keeping it strictly ascending
(set insertion). -/
def insertAsc (x : Int) : List Int → List Int
  | [] => [x]
  | y :: ys =>
    if x < y then x :: y :: ys
    else if x = y then y :: ys
    else y :: insertAsc x ys

/-- `sorted(set(l))`: the distinct elements in ascending order. -/
def sortedDedup (l : List Int) : List Int :=
  l.foldl (fun acc x => insertAsc x acc) []

/-- The starting visual column `lastcol = len(self.comment) + indent + 1`
computed by `get_pointers`, where `indent` is the indent of the line
`messages[0]["line"] + 1` (the line read by `get_pointers`). -/
def pointerLastCol (buf : List String) (m0 : Message) : Int :=
  (commentMarker.data.length : Int) +
    (getLineIndent (getLine buf (m0.line + 1)) : Int) + 1

/-- `line_len = len(line_text)` for the line `get_pointers` reads
(`messages[0]["line"] + 1`, including its trailing `"\n"`). -/
def pointerLineLen (buf : List String) (m0 : Message) : Int :=
  ((getLine buf (m0.line + 1)).data.length : Int)

/-- The sorted set of covered column offsets: for each message,
`range(start, end + 1)` with `start = column` and
`end = message.get("column_end", start + lastcol) - lastcol`. -/
def pointerColumns (buf : List String) : List Message → List Int
  | [] => []
  | m0 :: rest =>
    sortedDedup ((m0 :: rest).flatMap fun m =>
      intRange m.column
        (m.column_end.getD (m.column + pointerLastCol buf m0) -
          pointerLastCol buf m0 + 1))

/-- The caret-line construction loop: walk the columns left to right,
emitting `" " * (col - lastcol - 1) + "^"` per column and stopping
(`break`) at the first column with `col > line_len`. -/
def buildCarets (lineLen : Int) : List Int → Int → String
  | [], _ => ""
  | c :: rest, lastcol =>
    if c > lineLen then ""
    else ⟨List.replicate (c - lastcol - 1).toNat ' '⟩ ++ "^" ++
      buildCarets lineLen rest c

/-- `idletypecheck.get_pointers(messages)`: the synthesized pointer
message, or `none` when the caret line is entirely whitespace.  The
(nonempty) argument shares one target line; a pointer message carries
only the `"line"` and `"message"` keys. -/
def getPointers (buf : List String) : List Message → Option Message
  | [] => none
  | m0 :: rest =>
    let newLine := buildCarets (pointerLineLen buf m0)
      (pointerColumns buf (m0 :: rest)) (pointerLastCol buf m0)
    -- `if not new_line.strip(): return None`
    if newLine.data.all isPyWs then none
    else some { file := none, line := m0.line + 1, column := 0,
                line_end := none, column_end := none, mtype := none,
                message := newLine }

/-- Number of caret characters in a synthesized pointer line. -/
def caretCount (s : String) : Nat := s.data.countP (· = '^')

/-! ## Comment insertion (`idletypecheck.add_comments`) -/

/-- Descending sort (`sorted(line_data, reverse=True)`; the keys are
distinct, so stability is irrelevant). -/
def insertDesc (x : Int) : List Int → List Int
  | [] => [x]
  | y :: ys => if x ≥ y then x :: y :: ys else y :: insertDesc x ys

/-- `sorted(l, reverse=True)` for distinct elements. -/
def sortDescInt (l : List Int) : List Int :=
  l.foldr insertDesc []

/-- `line_data`: messages grouped by target line, keys in first-encounter
order. -/
def buildLineData (msgs : List Message) : List (Int × List Message) :=
  msgs.foldl (fun ld m => insertGroupedBy ld m.line m) []

/-- The synthesized cross-file notice
`{"file": target, "line": first, "column": 0, "column_end": 0,
"type": "note", "message": f"Another file has errors: {filename}"}`. -/
def otherFileMsg (target : String) (first : Int) (filename : String) : Message :=
  { file := some target, line := first, column := 0, line_end := none,
    column_end := some 0, mtype := some "note",
    message := "Another file has errors: " ++ filename }

/-- The inner `for message in reversed(messages)` loop (the argument is
already reversed): threads the buffer through `add_comment`, collecting
the target line once per successful insertion, and the attempted
messages in order (instrumentation used to state the insertion
invariant). -/
def insertLoop (total : Nat) (line : Int) :
    List Message → List String → List String × List Int × List Message
  | [], buf => (buf, [], [])
  | m :: rest, buf =>
    let (ok, buf') := addComment buf m total
    let (buf'', added, att) := insertLoop total line rest buf'
    (buf'', (if ok then [line] else []) ++ added, m :: att)

/-- The outer `for line in line_order` loop of `add_comments`. -/
def lineLoop (lineData : List (Int × List Message)) :
    List Int → List String → List String × List Int × List Message
  | [], buf => (buf, [], [])
  | line :: rest, buf =>
    let messages := (lineData.lookup line).getD []
    if messages.isEmpty then lineLoop lineData rest buf
    else
      let messages :=
        match getPointers buf messages with
        | some p => messages ++ [p]
        | none => messages
      let total := messages.length
      let (buf1, added1, att1) := insertLoop total line messages.reverse buf
      let (buf2, added2, att2) := lineLoop lineData rest buf1
      (buf2, added1 ++ added2, att1 ++ att2)

/-- `idletypecheck.add_comments(target_filename, start_line, normal)`
over a buffer, additionally returning the list of messages passed to
`add_comment` in order (instrumentation; `addComments` below projects it
away).  `default_file` of the parse is the same absolute path as
`target_filename` (both are `os.path.abspath(self.files.filename)` in
the source).  The Python `for filename in {f for f in files if f !=
target_filename}` iterates a set; set iteration order is modelled as
first-encounter order. -/
def addCommentsFull (target : String) (startLine : Int) (normal : String)
    (buf : List String) :
    Option (List String × List Int × List Message) :=
  (parseComments normal target startLine).map fun files =>
    let lineData := buildLineData ((files.lookup target).getD [])
    let lineOrder := sortDescInt (lineData.map (·.1))
    let first := lineOrder.getLast?.getD startLine
    -- `if not first in line_data: line_data[first] = []; line_order.append(first)`
    let lineData1 :=
      if (lineData.lookup first).isNone then lineData ++ [(first, [])] else lineData
    let lineOrder1 :=
      if (lineData.lookup first).isNone then lineOrder ++ [first] else lineOrder
    let otherFiles := (files.map (·.1)).filter (· ≠ target)
    let lineData2 := otherFiles.foldl
      (fun ld f => insertGroupedBy ld first (otherFileMsg target first f)) lineData1
    lineLoop lineData2 lineOrder1 buf

/-- `idletypecheck.add_comments`: the updated buffer and the list of
lines at which a comment was inserted. -/
def addComments (target : String) (startLine : Int) (normal : String)
    (buf : List String) : Option (List String × List Int) :=
  (addCommentsFull target startLine normal buf).map fun r => (r.1, r.2.1)

/-! ## Comment removal (`idletypecheck.remove_all_type_comments`) -/

/-- Keep a line iff its indentation-stripped text does not start with the
comment marker (the kept lines of the reversed deletion loop). -/
def keepLine (l : String) : Bool :=
  !pyStartsWith (pyLStrip l) commentMarker

/-- `idletypecheck.remove_all_type_comments`: delete every line whose
`lstrip()` starts with the comment marker.  (The source reads the whole
buffer, edits the line list in reverse order — equivalent to `filter` —
and writes it back; the unmodified early-return leaves the same
content.) -/
def removeAllTypeComments (buf : List String) : List String :=
  buf.filter keepLine

/-! ## Claim C1: lines with fewer than two `": "` separators -/

/-- C1 (counterexample): for the report line `"hello world"` (no `": "`
separator at all), the parsed record's `contents` is
`"unrecognized: hello world"`, not the raw line text `"hello world"` as
the claim states: `parse_comments` always renders
`message = f"{mtype}: {text}"`, with `mtype = "unrecognized"` for
unlocated lines. -/
theorem C1_counterexample :
    parseComments "hello world" "f.py" 7 =
      some [("f.py", [{ file := some "f.py", line := 7, column := 0,
                        line_end := some 7, column_end := some 0,
                        mtype := some "unrecognized",
                        message := "unrecognized: hello world" }])] ∧
    ("unrecognized: hello world" : String) ≠ "hello world" :=
  ⟨by decide, by decide⟩

/-- C1 (amended): for every report line with fewer than two `": "`
separators that does not end in a bracketed error-code tag, `parse_comments`
produces exactly one record with `file = default_file`,
`line = default_line`, and `contents` equal to `"unrecognized: "`
followed by the raw line text. -/
theorem C1_unlocated_line (defaultFile : String) (defaultLine : Int)
    (line : String) (hsep : (pySplitOn line ": ").length < 3)
    (htag : findTagStart line = none) :
    parseLine defaultFile defaultLine line =
      some { file := some defaultFile, line := defaultLine, column := 0,
             line_end := some defaultLine, column_end := some 0,
             mtype := some "unrecognized",
             message := "unrecognized: " ++ line } := by
  unfold parseLine parseLocation
  rw [if_pos hsep]
  simp only [htag]
  rfl

/-- Witness for `C1_unlocated_line` at the concrete line `"note text"`. -/
theorem C1_unlocated_line_witness :
    parseLine "d.py" 3 "note text" =
      some { file := some "d.py", line := 3, column := 0,
             line_end := some 3, column_end := some 0,
             mtype := some "unrecognized",
             message := "unrecognized: note text" } :=
  C1_unlocated_line "d.py" 3 "note text" (by decide) (by decide)

/-! ## Claim C2: the well-formed line with an error-code tag -/

/-- C2 (counterexample): parsing
`"/a/b.py:10:3: error: bad thing  [some-code]"` yields
`contents = "some-code error: bad thing"` — the tag is prepended
*without* its brackets (`comment_type.group(0)[3:-1]` strips `"  ["` and
`"]"`), not as `"[some-code] error: bad thing"` as the claim states. -/
theorem C2_counterexample :
    parseComments "/a/b.py:10:3: error: bad thing  [some-code]" "d.py" 1 =
      some [("/a/b.py", [{ file := some "/a/b.py", line := 10, column := 3,
                           line_end := some 10, column_end := some 3,
                           mtype := some "some-code error",
                           message := "some-code error: bad thing" }])] ∧
    ("some-code error: bad thing" : String) ≠ "[some-code] error: bad thing" :=
  ⟨by decide, by decide⟩

/-- C2 (amended): parsing `"/a/b.py:10:3: error: bad thing  [some-code]"`
yields `file = "/a/b.py"`, `line = 10`, `column = 3`, and
`contents = "some-code error: bad thing"`: the trailing bracketed
lowercase-hyphenated tag is stripped from the free text and prepended,
without its brackets, to the severity token. -/
theorem C2_parse_wellformed_line :
    parseLine "d.py" 1 "/a/b.py:10:3: error: bad thing  [some-code]" =
      some { file := some "/a/b.py", line := 10, column := 3,
             line_end := some 10, column_end := some 3,
             mtype := some "some-code error",
             message := "some-code error: bad thing" } := by
  decide

/-! ## Claim C7: report lines of unexpected shape -/

/-- C7 (counterexample): the report line `"foo:bar: note: hi"` has two
`": "` separators but a non-decimal line field `"bar"`, so
`int(position[1])` raises `ValueError` (modelled: `parse_comments`
returns `none`) instead of falling back to unlocated free text — the
exception escapes `parse_comments` and fails the whole run. -/
theorem C7_counterexample :
    parseComments "foo:bar: note: hi" "d.py" 1 = none := by decide

/-- C7 (amended): the fallback exists only for lines with fewer than two
`": "` separators: every such line parses successfully into a record
attached to the default file and line.  (Lines with two or more
separators whose location fields are not decimal integers raise
`ValueError` instead, failing the run — see the counterexample.) -/
theorem C7_fallback_few_separators (defaultFile : String) (defaultLine : Int)
    (line : String) (hsep : (pySplitOn line ": ").length < 3) :
    ∃ m, parseLine defaultFile defaultLine line = some m ∧
      m.file = some defaultFile ∧ m.line = defaultLine := by
  unfold parseLine parseLocation
  rw [if_pos hsep]
  cases findTagStart line <;> exact ⟨_, rfl, rfl, rfl⟩

/-- Witness for `C7_fallback_few_separators` at the concrete line
`"weird output  [tag-x]"` (which even ends in an error-code tag). -/
theorem C7_fallback_few_separators_witness :
    ∃ m, parseLine "d.py" 5 "weird output  [tag-x]" = some m ∧
      m.file = some "d.py" ∧ m.line = 5 :=
  C7_fallback_few_separators "d.py" 5 "weird output  [tag-x]" (by decide)

/-! ## Claim C10: the `lastcol` offset empties ordinary column sets -/

/-- `range(a, b)` is empty when `b ≤ a`. -/
theorem intRange_eq_nil {a b : Int} (h : b ≤ a) : intRange a b = [] := by
  unfold intRange
  have : (b - a).toNat = 0 := by omega
  simp [this]

/-- A `flatMap` of everywhere-empty lists is empty. -/
theorem flatMap_eq_nil_of {α β : Type} (l : List α) (f : α → List β)
    (h : ∀ m ∈ l, f m = []) : l.flatMap f = [] := by
  induction l with
  | nil => rfl
  | cons x xs ih =>
    simp only [List.flatMap_cons, h x (List.mem_cons_self x xs)]
    exact ih fun m hm => h m (List.mem_cons_of_mem x hm)

/-- Shared helper: `get_pointers` yields no pointer when every message's
`column_end` (read with its `dict.get` default) stays below
`column + lastcol`. -/
theorem getPointers_none_of_small (buf : List String)
    (m0 : Message) (rest : List Message)
    (h : ∀ m ∈ m0 :: rest,
      m.column_end.getD (m.column + pointerLastCol buf m0) <
        m.column + pointerLastCol buf m0) :
    getPointers buf (m0 :: rest) = none := by
  have hcols : pointerColumns buf (m0 :: rest) = [] := by
    have hflat := flatMap_eq_nil_of (m0 :: rest)
      (fun m => intRange m.column
        (m.column_end.getD (m.column + pointerLastCol buf m0) -
          pointerLastCol buf m0 + 1))
      (fun m hm => intRange_eq_nil (by have := h m hm; omega))
    simp only [pointerColumns, hflat]
    rfl
  simp only [getPointers, hcols]
  rfl

/-- C10: `get_pointers` covers, per message, the offsets
`range(column, column_end - lastcol + 1)` with
`lastcol = len("# typecheck: ") + indent + 1`; whenever every message of
the batch satisfies `column_end < column + lastcol` (reading the absent
key via its `dict.get` default), the covered set is empty and
`get_pointers` returns `None` — in particular for every ordinary
diagnostic parsed from a `path:line:col` location, where
`column_end = column`. -/
theorem C10_no_pointers_for_ordinary_diagnostics (buf : List String)
    (m0 : Message) (rest : List Message)
    (h : ∀ m ∈ m0 :: rest,
      m.column_end.getD (m.column + pointerLastCol buf m0) <
        m.column + pointerLastCol buf m0) :
    getPointers buf (m0 :: rest) = none :=
  getPointers_none_of_small buf m0 rest h

/-- Witness for `C10_no_pointers_for_ordinary_diagnostics`: the parsed
record of `"f.py:1:3: error: x"` has `column_end = column = 3`, and no
pointer line is synthesized for it. -/
theorem C10_no_pointers_witness :
    getPointers ["x = 1"]
      [{ file := some "f.py", line := 1, column := 3, line_end := some 1,
         column_end := some 3, mtype := some "error",
         message := "error: x" }] = none :=
  C10_no_pointers_for_ordinary_diagnostics ["x = 1"] _ [] (by decide)

/-! ## Claim C5: pointer synthesis -/

/-- Carets are never emitted for `'^'`-free padding. -/
theorem countP_replicate_space (n : Nat) :
    (List.replicate n ' ').countP (· = '^') = 0 := by
  induction n with
  | zero => rfl
  | succ k ih => simp [List.replicate_succ, ih]

/-- The caret loop emits exactly one caret per column of the longest
prefix of columns not exceeding `line_len`, and stops (`break`) at the
first column beyond it. -/
theorem caretCount_buildCarets (lineLen : Int) (cols : List Int) (lastcol : Int) :
    caretCount (buildCarets lineLen cols lastcol) =
      (cols.takeWhile fun c => decide (c ≤ lineLen)).length := by
  induction cols generalizing lastcol with
  | nil => rfl
  | cons c rest ih =>
    by_cases hc : c > lineLen
    · have : decide (c ≤ lineLen) = false := by simp; omega
      simp [buildCarets, hc, caretCount, List.takeWhile_cons, this]
    · have hle : decide (c ≤ lineLen) = true := by simp; omega
      simp only [buildCarets, if_neg hc, List.takeWhile_cons, hle]
      show (⟨List.replicate _ ' '⟩ ++ "^" ++ buildCarets lineLen rest c : String).data.countP _ = _
      simp only [String.data_append]
      rw [List.countP_append, List.countP_append, countP_replicate_space]
      have := ih c
      simp only [caretCount] at this
      simp [this]
      omega

/-- C5 (counterexample): for two comments on one target line with spans
`[2, 4]` and `[6, 6]` (in a buffer whose lines are 10 characters long),
`get_pointers` returns `None` — not a caret line with two caret groups
as the claim states — because `end = column_end - lastcol` with
`lastcol = len("# typecheck: ") + indent + 1 ≥ 14` makes both
`range(start, end + 1)` sets empty. -/
theorem C5_counterexample :
    getPointers ["0123456789", "0123456789"]
      [{ file := some "f.py", line := 1, column := 2, line_end := some 1,
         column_end := some 4, mtype := some "error", message := "x" },
       { file := some "f.py", line := 1, column := 6, line_end := some 1,
         column_end := some 6, mtype := some "error", message := "y" }] = none := by
  decide

/-- C5 (amended): for the spans `[2, 4]` and `[6, 6]` the synthesizer
returns `None` (the `lastcol` subtraction empties the covered set);
in general the caret loop emits exactly one caret per covered column up
to the first column exceeding the length of the line it reads (the line
after the target), never past it; a synthesized pointer line is never
entirely whitespace; and the result is `None` whenever every covered
column falls beyond that line's length. -/
theorem C5_pointer_synthesis :
    (getPointers ["0123456789", "0123456789"]
      [{ file := some "f.py", line := 1, column := 2, line_end := some 1,
         column_end := some 4, mtype := some "error", message := "x" },
       { file := some "f.py", line := 1, column := 6, line_end := some 1,
         column_end := some 6, mtype := some "error", message := "y" }] = none) ∧
    (∀ (lineLen : Int) (cols : List Int) (lastcol : Int),
      caretCount (buildCarets lineLen cols lastcol) =
        (cols.takeWhile fun c => decide (c ≤ lineLen)).length) ∧
    (∀ (buf : List String) (msgs : List Message) (p : Message),
      getPointers buf msgs = some p → p.message.data.all isPyWs = false) ∧
    (∀ (buf : List String) (m0 : Message) (rest : List Message),
      (∀ c ∈ pointerColumns buf (m0 :: rest), pointerLineLen buf m0 < c) →
      getPointers buf (m0 :: rest) = none) := by
  refine ⟨by decide, caretCount_buildCarets, ?_, ?_⟩
  · intro buf msgs p hp
    match msgs with
    | [] => exact absurd hp (by simp [getPointers])
    | m0 :: rest =>
      simp only [getPointers] at hp
      by_cases hws : (buildCarets (pointerLineLen buf m0)
          (pointerColumns buf (m0 :: rest)) (pointerLastCol buf m0)).data.all isPyWs
      · rw [if_pos hws] at hp; exact absurd hp (by simp)
      · rw [if_neg hws] at hp
        have := congrArg Message.message (Option.some.inj hp)
        simp only at this
        rw [← this]
        exact Bool.eq_false_iff.mpr hws
  · intro buf m0 rest h
    simp only [getPointers]
    match hc : pointerColumns buf (m0 :: rest) with
    | [] => rfl
    | c :: cs =>
      have hgt : c > pointerLineLen buf m0 := h c (by rw [hc]; exact List.mem_cons_self c cs)
      simp only [buildCarets, if_pos hgt]
      rfl

/-- Witness for `C5_pointer_synthesis`: every covered column of a batch
whose only span starts beyond the underlying line's length is out of
range, so no pointer comment is produced. -/
theorem C5_pointer_synthesis_witness :
    getPointers ["ab"]
      [{ file := some "f.py", line := 1, column := 50, line_end := some 1,
         column_end := some 70, mtype := some "error", message := "z" }] = none :=
  C5_pointer_synthesis.2.2.2 ["ab"] _ [] (by decide)

/-! ## Claim C3: duplicate suppression -/

/-- C3 (counterexample): a second `add_comments` run with the identical
two-message report against the buffer produced by the first run inserts
both comments again.  After the first run the two comment lines occupy
lines 1 and 2 and the code line sits at line 3; the duplicate window of
`add_comment` checks only lines `line .. line - max_exist_up` (upward
from the target), so the comment at line 2 — *below* nothing but still
past the window's top at line 1 — is rediscovered for neither message
beyond the first, and the batch is re-inserted. -/
theorem C3_counterexample :
    addComments "f.py" 1 "f.py:1: error: A\nf.py:1: error: B" ["x = 1"] =
      some (["# typecheck: error: A", "# typecheck: error: B", "x = 1"], [1, 1]) ∧
    addComments "f.py" 1 "f.py:1: error: A\nf.py:1: error: B"
        ["# typecheck: error: A", "# typecheck: error: B", "x = 1"] =
      some (["# typecheck: error: A", "# typecheck: error: B",
             "# typecheck: error: A", "# typecheck: error: B", "x = 1"], [1, 1]) ∧
    (["# typecheck: error: A", "# typecheck: error: B",
      "# typecheck: error: A", "# typecheck: error: B", "x = 1"] : List String) ≠
      ["# typecheck: error: A", "# typecheck: error: B", "x = 1"] :=
  ⟨by decide, by decide, by decide⟩

/-- C3 (amended): `add_comment` returns `False` (no insertion) whenever
the canonical rendering (comment marker + contents, leading indentation
ignored) already occurs as a substring of one of the `max_exist_up + 1`
buffer lines from the target line upward.  (This does *not* make a
second identical `add_comments` run a no-op: comments beyond the topmost
one of a batch end up below the target line, outside this window — see
the counterexample.) -/
theorem C3_window_suppression (buf : List String) (m : Message) (k i : Nat)
    (hik : i ≤ k)
    (hex : containsSub (getLine buf (m.line - i)) (getMsgLine 0 m.message) = true) :
    addComment buf m k = (false, buf) := by
  have hce : commentExists buf (m.line - ((i : Int) - 1)) m.message = true := by
    unfold commentExists
    have harg : m.line - ((i : Int) - 1) - 1 = m.line - i := by ring
    rw [harg]
    exact hex
  have hany : ((List.range (k + 1)).any
      fun j => commentExists buf (m.line - ((j : Int) - 1)) m.message) = true :=
    List.any_eq_true.mpr ⟨i, List.mem_range.mpr (by omega), hce⟩
  unfold addComment
  rw [if_pos hany]

/-- Witness for `C3_window_suppression`: the rendering of message `"z"`
for target line 2 already sits on buffer line 1 (one line up, `i = 1 ≤
k = 1`), so nothing is inserted. -/
theorem C3_window_suppression_witness :
    addComment ["# typecheck: z", "q = 2"]
      { file := some "f.py", line := 2, column := 0, line_end := some 2,
        column_end := some 0, mtype := some "error", message := "z" } 1 =
      (false, ["# typecheck: z", "q = 2"]) :=
  C3_window_suppression _ _ 1 1 (by decide) (by decide)

/-! ## Claim C4: descending-line-order insertion -/

/-- Membership in `insertDesc`. -/
theorem mem_insertDesc {x y : Int} {l : List Int} :
    y ∈ insertDesc x l ↔ y = x ∨ y ∈ l := by
  induction l with
  | nil => simp [insertDesc]
  | cons z zs ih =>
    by_cases h : x ≥ z
    · simp [insertDesc, h, List.mem_cons]
    · simp only [insertDesc, if_neg h, List.mem_cons, ih]
      tauto

/-- `insertDesc` preserves descending sortedness. -/
theorem sorted_insertDesc (x : Int) (l : List Int)
    (h : l.Sorted (· ≥ ·)) : (insertDesc x l).Sorted (· ≥ ·) := by
  induction l with
  | nil => simp [insertDesc]
  | cons z zs ih =>
    rw [List.sorted_cons] at h
    by_cases hxz : x ≥ z
    · rw [insertDesc, if_pos hxz, List.sorted_cons]
      refine ⟨?_, List.sorted_cons.mpr h⟩
      intro b hb
      rcases List.mem_cons.mp hb with rfl | hb
      · exact hxz
      · exact le_trans (h.1 b hb) hxz
    · rw [insertDesc, if_neg hxz, List.sorted_cons]
      refine ⟨?_, ih h.2⟩
      intro b hb
      rcases mem_insertDesc.mp hb with rfl | hb
      · omega
      · exact h.1 b hb

/-- C4: target lines are processed in descending numeric order
(`sorted(line_data, reverse=True)` is descending-sorted for any key
list); concretely, for a batch with diagnostics on lines 5 and 10 the
insertion at line 10 happens first and line 5's target is not shifted —
each comment lands directly above its own target line — and within one
target line comments are inserted in reverse so that the report-order
first comment ends up topmost. -/
theorem C4_descending_insertion :
    (∀ l : List Int, (sortDescInt l).Sorted (· ≥ ·)) ∧
    (addComments "f.py" 1 "f.py:5: error: A\nf.py:10: error: B"
        ["l1", "l2", "l3", "l4", "l5", "l6", "l7", "l8", "l9", "l10", "l11"] =
      some (["l1", "l2", "l3", "l4", "# typecheck: error: A", "l5", "l6", "l7",
             "l8", "l9", "# typecheck: error: B", "l10", "l11"], [10, 5])) ∧
    (addComments "f.py" 1 "f.py:1: error: A\nf.py:1: error: B" ["x = 1"] =
      some (["# typecheck: error: A", "# typecheck: error: B", "x = 1"], [1, 1])) := by
  refine ⟨?_, by decide, by decide⟩
  intro l
  induction l with
  | nil => simp [sortDescInt]
  | cons x xs ih => exact sorted_insertDesc x _ ih

/-- Witness for `C4_descending_insertion`: the line keys 5 and 10 are
processed as `[10, 5]`. -/
theorem C4_descending_insertion_witness :
    (sortDescInt [5, 10]).Sorted (· ≥ ·) :=
  C4_descending_insertion.1 [5, 10]

/-! ## Claim C6: add-then-remove round-trip -/

/-- Leading spaces are transparent to `lstrip`. -/
theorem dropWhile_replicate_space (n : Nat) (l : List Char) :
    List.dropWhile isPyWs (List.replicate n ' ' ++ l) = List.dropWhile isPyWs l := by
  induction n with
  | zero => rfl
  | succ k ih => simp [List.replicate_succ, List.dropWhile_cons, ih, isPyWs]

/-- The comment marker itself starts with a non-whitespace character. -/
theorem dropWhile_marker_data :
    List.dropWhile isPyWs commentMarker.data = commentMarker.data := by decide

/-- Every line `add_comment` inserts — indentation, then the comment
marker, then the message — is deleted by `remove_all_type_comments`. -/
theorem keepLine_getMsgLine (indent : Nat) (msg : String) :
    keepLine (getMsgLine indent msg) = false := by
  unfold keepLine getMsgLine pyLStrip pyStartsWith
  simp only [String.data_append]
  rw [List.append_assoc, dropWhile_replicate_space, List.dropWhile_append,
    dropWhile_marker_data]
  have hne : commentMarker.data.isEmpty = false := by decide
  rw [hne]
  simp only [Bool.false_eq_true, if_false, Bool.not_eq_false']
  exact List.isPrefixOf_iff_prefix.mpr (List.prefix_append _ _)

/-- `add_comment` never changes the marker-free sublist of the buffer:
it either inserts nothing or inserts one marker-carrying line. -/
theorem filter_keep_addComment (buf : List String) (m : Message) (k : Nat) :
    ((addComment buf m k).2).filter keepLine = buf.filter keepLine := by
  unfold addComment
  by_cases hany : ((List.range (k + 1)).any
      fun i => commentExists buf (m.line - ((i : Int) - 1)) m.message) = true
  · rw [if_pos hany]
  · rw [if_neg hany]
    by_cases hin : 1 ≤ m.line ∧ m.line ≤ (buf.length : Int)
    · rw [if_pos hin]
      have hn : (m.line - 1).toNat < buf.length := by omega
      have hsucc : m.line.toNat = (m.line - 1).toNat + 1 := by omega
      rw [List.filter_append, List.filter_cons, keepLine_getMsgLine]
      simp only [Bool.false_eq_true, if_false]
      rw [← List.filter_append]
      congr 1
      conv_rhs => rw [← List.take_append_drop (m.line - 1).toNat buf]
      rw [List.drop_eq_getElem_cons hn, List.getD_eq_getElem buf "" hn, hsucc]
    · rw [if_neg hin]
      by_cases hgt : m.line > (buf.length : Int)
      · rw [if_pos hgt]
        simp [List.filter_append, List.filter_cons, keepLine_getMsgLine]
      · rw [if_neg hgt]
        simp [List.filter_cons, keepLine_getMsgLine]

/-- `insertLoop` preserves the marker-free sublist. -/
theorem filter_keep_insertLoop (total : Nat) (line : Int)
    (msgs : List Message) (buf : List String) :
    ((insertLoop total line msgs buf).1).filter keepLine = buf.filter keepLine := by
  induction msgs generalizing buf with
  | nil => rfl
  | cons m rest ih =>
    simp only [insertLoop]
    rw [ih (addComment buf m total).2, filter_keep_addComment]

/-- `lineLoop` preserves the marker-free sublist. -/
theorem filter_keep_lineLoop (lineData : List (Int × List Message))
    (lineOrder : List Int) (buf : List String) :
    ((lineLoop lineData lineOrder buf).1).filter keepLine = buf.filter keepLine := by
  induction lineOrder generalizing buf with
  | nil => rfl
  | cons line rest ih =>
    simp only [lineLoop]
    by_cases hemp : ((lineData.lookup line).getD []).isEmpty = true
    · rw [if_pos hemp]
      exact ih buf
    · rw [if_neg hemp]
      rw [ih, filter_keep_insertLoop]

/-- Whatever `add_comments` does to the buffer, the marker-free sublist
is unchanged. -/
theorem filter_keep_addCommentsFull (target : String) (startLine : Int)
    (normal : String) (buf : List String)
    (r : List String × List Int × List Message)
    (hr : addCommentsFull target startLine normal buf = some r) :
    r.1.filter keepLine = buf.filter keepLine := by
  unfold addCommentsFull at hr
  cases hp : parseComments normal target startLine with
  | none => rw [hp] at hr; exact absurd hr (by simp)
  | some files =>
    rw [hp, Option.map_some'] at hr
    rw [← Option.some.inj hr]
    exact filter_keep_lineLoop _ _ _

/-- C6: for every buffer none of whose lines starts (after stripping
leading whitespace) with the comment marker, running `add_comments` and
then `remove_all_type_comments` restores the original buffer exactly. -/
theorem C6_round_trip (target : String) (startLine : Int) (normal : String)
    (buf newBuf : List String) (added : List Int)
    (hclean : ∀ l ∈ buf, keepLine l = true)
    (hadd : addComments target startLine normal buf = some (newBuf, added)) :
    removeAllTypeComments newBuf = buf := by
  unfold addComments at hadd
  cases hf : addCommentsFull target startLine normal buf with
  | none => rw [hf] at hadd; exact absurd hadd (by simp)
  | some r =>
    rw [hf, Option.map_some'] at hadd
    have h1 : r.1 = newBuf := congrArg Prod.fst (Option.some.inj hadd)
    unfold removeAllTypeComments
    rw [← h1, filter_keep_addCommentsFull target startLine normal buf r hf]
    exact List.filter_eq_self.mpr hclean

/-- Witness for `C6_round_trip`: one diagnostic added to a clean
one-line buffer and removed again restores the buffer. -/
theorem C6_round_trip_witness :
    removeAllTypeComments ["# typecheck: error: A", "x = 1"] = ["x = 1"] :=
  C6_round_trip "f.py" 1 "f.py:1: error: A" ["x = 1"]
    ["# typecheck: error: A", "x = 1"] [1] (by decide) (by decide)

/-! ## Claim C8: cross-file-only reports -/

/-- Helper: the synthesized cross-file notice never yields a pointer
line (`column = column_end = 0` and `lastcol ≥ 14`). -/
theorem getPointers_otherFileMsg (buf : List String) (target : String)
    (first : Int) (f : String) :
    getPointers buf [otherFileMsg target first f] = none := by
  apply getPointers_none_of_small
  intro m hm
  rw [List.mem_singleton] at hm
  subst hm
  simp only [otherFileMsg, Option.getD_some, pointerLastCol]
  omega

/-- Helper: evaluating `add_comment` on the cross-file notice when the
target line is in range and the duplicate window is clear. -/
theorem addComment_otherFileMsg (buf : List String) (target : String)
    (startLine : Int) (f : String)
    (hrange : 1 ≤ startLine ∧ startLine ≤ (buf.length : Int))
    (hnodupA : commentExists buf (startLine + 1)
      ("Another file has errors: " ++ f) = false)
    (hnodupB : commentExists buf startLine
      ("Another file has errors: " ++ f) = false) :
    addComment buf (otherFileMsg target startLine f) 1 =
      (true, buf.take (startLine - 1).toNat ++
        getMsgLine (getLineIndent (getLine buf startLine))
          ("Another file has errors: " ++ f) ::
        buf.getD (startLine - 1).toNat "" :: buf.drop startLine.toNat) := by
  have e0 : startLine - (((0 : Nat) : Int) - 1) = startLine + 1 := by push_cast; ring
  have e1 : startLine - (((1 : Nat) : Int) - 1) = startLine := by push_cast; ring
  have hany : ((List.range (1 + 1)).any fun i =>
      commentExists buf (startLine - ((i : Int) - 1))
        ("Another file has errors: " ++ f)) = false := by
    show ((List.range 2).any _) = false
    rw [show List.range 2 = [0, 1] from rfl]
    simp only [List.any_cons, List.any_nil, Bool.or_false, otherFileMsg]
    rw [e0, e1, hnodupA, hnodupB]
    rfl
  unfold addComment
  simp only [hany, Bool.false_eq_true, if_false, otherFileMsg, if_pos hrange]

/-- C8: when the parsed report contains only diagnostics for a single
file other than the currently open one, exactly one synthesized comment
`"Another file has errors: <name>"` is inserted, directly above the
fallback (start) line. -/
theorem C8_cross_file_summary (target f : String) (startLine : Int)
    (normal : String) (buf : List String) (msgs : List Message)
    (hparse : parseComments normal target startLine = some [(f, msgs)])
    (hne : f ≠ target)
    (hrange : 1 ≤ startLine ∧ startLine ≤ (buf.length : Int))
    (hnodupA : commentExists buf (startLine + 1)
      ("Another file has errors: " ++ f) = false)
    (hnodupB : commentExists buf startLine
      ("Another file has errors: " ++ f) = false) :
    addComments target startLine normal buf =
      some (buf.take (startLine - 1).toNat ++
        getMsgLine (getLineIndent (getLine buf startLine))
          ("Another file has errors: " ++ f) ::
        buf.getD (startLine - 1).toNat "" :: buf.drop startLine.toNat,
        [startLine]) := by
  have hbeq : (target == f) = false := beq_eq_false_iff_ne.mpr (Ne.symm hne)
  have hlk : List.lookup target [(f, msgs)] = none := by
    simp [List.lookup, hbeq]
  have hfil : List.filter (fun x => x ≠ target) [f] = [f] := by
    simp [List.filter_cons, hne]
  unfold addComments addCommentsFull
  rw [hparse, Option.map_some', Option.map_some']
  simp only [List.map_cons, List.map_nil, hlk, Option.getD_none, hfil]
  show some ((lineLoop _ _ buf).1, (lineLoop _ _ buf).2.1) = _
  rw [show buildLineData [] = [] from rfl]
  simp only [List.map_nil]
  rw [show sortDescInt [] = [] from rfl]
  simp only [List.getLast?_nil, Option.getD_none, List.lookup_nil,
    Option.isNone_none, if_true, List.nil_append, List.foldl_cons, List.foldl_nil]
  rw [show insertGroupedBy [(startLine, ([] : List Message))] startLine
        (otherFileMsg target startLine f) =
      [(startLine, [otherFileMsg target startLine f])] by
    simp [insertGroupedBy]]
  have hlk2 : List.lookup startLine [(startLine, [otherFileMsg target startLine f])] =
      some [otherFileMsg target startLine f] := by
    simp [List.lookup]
  simp only [lineLoop, hlk2, Option.getD_some, List.isEmpty_cons,
    Bool.false_eq_true, if_false, getPointers_otherFileMsg, List.length_cons,
    List.length_nil, List.reverse_cons, List.reverse_nil, List.nil_append,
    insertLoop, addComment_otherFileMsg buf target startLine f hrange hnodupA hnodupB,
    List.append_nil]
  simp

/-- Witness for `C8_cross_file_summary`: a report for `/other.py` only,
against the open file `/me.py`, adds exactly the one notice above the
start line. -/
theorem C8_cross_file_summary_witness :
    addComments "/me.py" 2 "/other.py:1: error: bad" ["a", "b", "c"] =
      some (["a", "# typecheck: Another file has errors: /other.py", "b", "c"], [2]) :=
  C8_cross_file_summary "/me.py" "/other.py" 2 "/other.py:1: error: bad"
    ["a", "b", "c"]
    [{ file := some "/other.py", line := 1, column := 0, line_end := some 1,
       column_end := some 0, mtype := some "error", message := "error: bad" }]
    (by decide) (by decide) (by decide) (by decide) (by decide)

/-! ## Claim C9: only the open file's comments are inserted -/

/-- A parsed message always carries a `"file"` key. -/
theorem parseLine_file_isSome (defaultFile : String) (defaultLine : Int)
    (c : String) (m : Message) (h : parseLine defaultFile defaultLine c = some m) :
    ∃ fn, m.file = some fn := by
  unfold parseLine at h
  cases hl : parseLocation defaultFile defaultLine c with
  | none => rw [hl] at h; exact absurd h (by simp)
  | some v =>
    obtain ⟨fn, ln, le, co, ce, mt, tx⟩ := v
    rw [hl] at h
    cases findTagStart tx <;>
      exact ⟨fn, by rw [← Option.some.inj h]⟩

/-- `insertGroupedBy` preserves any per-entry invariant also satisfied by
the inserted message under its key. -/
theorem insertGroupedBy_inv {κ : Type} [DecidableEq κ] (P : κ → Message → Prop)
    (gs : List (κ × List Message)) (key : κ) (m : Message)
    (hgs : ∀ p ∈ gs, ∀ x ∈ p.2, P p.1 x) (hm : P key m) :
    ∀ p ∈ insertGroupedBy gs key m, ∀ x ∈ p.2, P p.1 x := by
  induction gs with
  | nil =>
    intro p hp x hx
    rw [insertGroupedBy, List.mem_singleton] at hp
    subst hp
    rw [List.mem_singleton] at hx
    subst hx
    exact hm
  | cons g rest ih =>
    obtain ⟨k, l⟩ := g
    intro p hp x hx
    rw [insertGroupedBy] at hp
    by_cases hk : k = key
    · rw [if_pos hk] at hp
      rcases List.mem_cons.mp hp with rfl | hp
      · rcases List.mem_append.mp hx with hx | hx
        · exact hgs (k, l) (List.mem_cons_self _ _) x hx
        · rw [List.mem_singleton] at hx; subst hx; rw [hk]; exact hm
      · exact hgs p (List.mem_cons_of_mem _ hp) x hx
    · rw [if_neg hk] at hp
      rcases List.mem_cons.mp hp with rfl | hp
      · exact hgs (k, l) (List.mem_cons_self _ _) x hx
      · exact ih (fun q hq => hgs q (List.mem_cons_of_mem _ hq)) p hp x hx

/-- Every message stored in the parse result's groups carries its group
key as its `"file"` value. -/
theorem parseCommentsGo_file_inv (defaultFile : String) (defaultLine : Int)
    (lines : List String) (acc files : List (String × List Message))
    (hacc : ∀ p ∈ acc, ∀ x ∈ p.2, x.file = some p.1)
    (h : parseCommentsGo defaultFile defaultLine lines acc = some files) :
    ∀ p ∈ files, ∀ x ∈ p.2, x.file = some p.1 := by
  induction lines generalizing acc with
  | nil =>
    rw [parseCommentsGo] at h
    rw [← Option.some.inj h]
    exact hacc
  | cons line rest ih =>
    rw [parseCommentsGo] at h
    cases hm : parseLine defaultFile defaultLine line with
    | none => rw [hm] at h; exact absurd h (by simp)
    | some m =>
      rw [hm] at h
      obtain ⟨fn, hfn⟩ := parseLine_file_isSome _ _ _ _ hm
      refine ih _ ?_ h
      exact insertGroupedBy_inv (fun k x => x.file = some k) acc
        (m.file.getD defaultFile) m hacc (by simp [hfn])

/-- Assoc-list lookup success implies membership. -/
theorem mem_of_lookup {α β : Type} [BEq α] [LawfulBEq α]
    (l : List (α × β)) (k : α) (v : β) (h : l.lookup k = some v) :
    (k, v) ∈ l := by
  induction l with
  | nil => exact absurd h (by simp [List.lookup])
  | cons p rest ih =>
    obtain ⟨a, b⟩ := p
    rw [List.lookup] at h
    cases hk : (k == a) with
    | true =>
      simp only [hk] at h
      have hka : k = a := eq_of_beq hk
      subst hka
      rw [← Option.some.inj h]
      exact List.mem_cons_self _ _
    | false =>
      simp only [hk] at h
      exact List.mem_cons_of_mem _ (ih h)

/-- A synthesized pointer message carries no `"file"` key. -/
theorem getPointers_file_none (buf : List String) (msgs : List Message)
    (p : Message) (h : getPointers buf msgs = some p) : p.file = none := by
  match msgs with
  | [] => exact absurd h (by simp [getPointers])
  | m0 :: rest =>
    simp only [getPointers] at h
    by_cases hws : (buildCarets (pointerLineLen buf m0)
        (pointerColumns buf (m0 :: rest)) (pointerLastCol buf m0)).data.all isPyWs
    · rw [if_pos hws] at h; exact absurd h (by simp)
    · rw [if_neg hws] at h
      rw [← Option.some.inj h]

/-- `insertLoop` attempts exactly its input messages. -/
theorem insertLoop_attempted (total : Nat) (line : Int)
    (msgs : List Message) (buf : List String) :
    (insertLoop total line msgs buf).2.2 = msgs := by
  induction msgs generalizing buf with
  | nil => rfl
  | cons m rest ih => simp only [insertLoop, ih]

/-- Every message `lineLoop` attempts to insert is either stored in
`lineData` or is a pointer message (no `"file"` key). -/
theorem lineLoop_attempted_sources (lineData : List (Int × List Message))
    (lineOrder : List Int) (buf : List String) :
    ∀ m ∈ (lineLoop lineData lineOrder buf).2.2,
      (∃ line l, lineData.lookup line = some l ∧ m ∈ l) ∨ m.file = none := by
  induction lineOrder generalizing buf with
  | nil => intro m hm; exact absurd hm (by simp [lineLoop])
  | cons line rest ih =>
    intro m hm
    simp only [lineLoop] at hm
    by_cases hemp : ((lineData.lookup line).getD []).isEmpty = true
    · rw [if_pos hemp] at hm
      exact ih _ m hm
    · rw [if_neg hemp] at hm
      simp only at hm
      rcases List.mem_append.mp hm with hm1 | hm2
      · rw [insertLoop_attempted] at hm1
        rw [List.mem_reverse] at hm1
        have hl : ∃ l, lineData.lookup line = some l := by
          cases hc : lineData.lookup line with
          | none => rw [hc] at hemp; exact absurd rfl hemp
          | some l => exact ⟨l, rfl⟩
        obtain ⟨l, hl⟩ := hl
        rw [hl, Option.getD_some] at hm1
        cases hp : getPointers buf l with
        | none =>
          rw [hp] at hm1
          exact Or.inl ⟨line, l, hl, hm1⟩
        | some p =>
          rw [hp] at hm1
          rcases List.mem_append.mp hm1 with hm1 | hm1
          · exact Or.inl ⟨line, l, hl, hm1⟩
          · rw [List.mem_singleton] at hm1
            subst hm1
            exact Or.inr (getPointers_file_none buf l m hp)
      · exact ih _ m hm2

/-- `buildLineData` only stores the messages it is given. -/
theorem buildLineData_inv (target : String) (msgs : List Message)
    (acc : List (Int × List Message))
    (hacc : ∀ p ∈ acc, ∀ x ∈ p.2, x.file = some target)
    (hmsgs : ∀ m ∈ msgs, m.file = some target) :
    ∀ p ∈ msgs.foldl (fun ld m => insertGroupedBy ld m.line m) acc,
      ∀ x ∈ p.2, x.file = some target := by
  induction msgs generalizing acc with
  | nil => exact hacc
  | cons m rest ih =>
    simp only [List.foldl_cons]
    refine ih _ ?_ fun x hx => hmsgs x (List.mem_cons_of_mem _ hx)
    exact insertGroupedBy_inv (fun _ x => x.file = some target) acc m.line m
      hacc (hmsgs m (List.mem_cons_self _ _))

/-- Folding in the cross-file notices keeps every stored message
addressed to the target file. -/
theorem otherFiles_fold_inv (target : String) (first : Int)
    (fs : List String) (acc : List (Int × List Message))
    (hacc : ∀ p ∈ acc, ∀ x ∈ p.2, x.file = some target) :
    ∀ p ∈ fs.foldl
        (fun ld f => insertGroupedBy ld first (otherFileMsg target first f)) acc,
      ∀ x ∈ p.2, x.file = some target := by
  induction fs generalizing acc with
  | nil => exact hacc
  | cons f rest ih =>
    simp only [List.foldl_cons]
    refine ih _ ?_
    exact insertGroupedBy_inv (fun _ x => x.file = some target) acc first
      (otherFileMsg target first f) hacc rfl

/-- C9: within one run, every message `add_comments` passes to
`add_comment` either addresses the currently open file (its `"file"` key
is the target path) or is a synthesized pointer line, which carries no
`"file"` key at all; records parsed for other files are never
inserted. -/
theorem C9_only_target_file_inserted (target : String) (startLine : Int)
    (normal : String) (buf newBuf : List String) (added : List Int)
    (attempted : List Message)
    (h : addCommentsFull target startLine normal buf =
      some (newBuf, added, attempted)) :
    ∀ m ∈ attempted, m.file = some target ∨ m.file = none := by
  unfold addCommentsFull at h
  cases hp : parseComments normal target startLine with
  | none => rw [hp] at h; exact absurd h (by simp)
  | some files =>
    rw [hp, Option.map_some'] at h
    have hfiles : ∀ p ∈ files, ∀ x ∈ p.2, x.file = some p.1 :=
      parseCommentsGo_file_inv target startLine _ [] files
        (by intro p hp'; exact absurd hp' (List.not_mem_nil p)) hp
    have htgt : ∀ m ∈ (files.lookup target).getD [], m.file = some target := by
      cases hc : files.lookup target with
      | none => simp
      | some l =>
        rw [Option.getD_some]
        exact fun m hm => hfiles (target, l) (mem_of_lookup files target l hc) m hm
    have hbl : ∀ p ∈ buildLineData ((files.lookup target).getD []),
        ∀ x ∈ p.2, x.file = some target :=
      buildLineData_inv target _ []
        (by intro p hp'; exact absurd hp' (List.not_mem_nil p)) htgt
    have heq := Option.some.inj h
    have h22 := congrArg (fun x => x.2.2) heq
    simp only at h22
    intro m hm
    rw [← h22] at hm
    rcases lineLoop_attempted_sources _ _ _ m hm with ⟨line, l, hlk, hml⟩ | hn
    · refine Or.inl (otherFiles_fold_inv target _ _ _ ?_ (line, l)
        (mem_of_lookup _ line l hlk) m hml)
      split
      · intro p hp' x hx
        rcases List.mem_append.mp hp' with hp' | hp'
        · exact hbl p hp' x hx
        · rw [List.mem_singleton] at hp'
          subst hp'
          exact absurd hx (List.not_mem_nil x)
      · exact hbl
    · exact Or.inr hn

/-- Witness for `C9_only_target_file_inserted`: in a run whose report
mentions the open file and another file, every attempted insertion
addresses the open file (the cross-file record itself is only
summarized). -/
theorem C9_only_target_file_inserted_witness :
    ({ file := some "/me.py", line := 1, column := 0, line_end := some 1,
       column_end := some 0, mtype := some "error",
       message := "error: here" } : Message).file = some "/me.py" ∨
    ({ file := some "/me.py", line := 1, column := 0, line_end := some 1,
       column_end := some 0, mtype := some "error",
       message := "error: here" } : Message).file = none :=
  C9_only_target_file_inserted "/me.py" 1
    "/me.py:1: error: here\n/other.py:2: error: there" ["x = 1"]
    ["# typecheck: error: here",
     "# typecheck: Another file has errors: /other.py", "x = 1"] [1, 1]
    [{ file := some "/me.py", line := 1, column := 0, line_end := none,
       column_end := some 0, mtype := some "note",
       message := "Another file has errors: /other.py" },
     { file := some "/me.py", line := 1, column := 0, line_end := some 1,
       column_end := some 0, mtype := some "error",
       message := "error: here" }]
    (by decide) _ (by decide)

end IdleTypeCheck
